import Mathlib

set_option maxRecDepth 4000000
set_option maxHeartbeats 4000000

/-!
Verification of the `stanford_cs_phds` scripts.

The repository's core is a text pipeline: parse `Name | School` lines,
canonicalise institution strings through regex alias tables and cleanup
rules, and aggregate counts.  We embed the Python functions shallowly:

* Python strings become `String` / `List Char`; `str.strip`, `str.split`,
  `str.replace`, `str.startswith` become the corresponding list functions.
* Python `re` patterns are transcribed one-to-one into a small regex AST
  (`RE`) evaluated by a backtracking matcher (`runRE`) whose alternative
  order mirrors Python's leftmost, greedy, first-alternative-wins
  semantics.  `re.search`, `re.sub` (all non-overlapping matches) and
  `re.split(..., maxsplit=1)[0]` are `reSearch`, `reSubAll`,
  `reSplitHead`.
* `re.IGNORECASE` is modelled by ASCII case folding (`lowerAscii`) of both
  sides; `\s`, `\w`, `[A-Z]` are modelled over their ASCII ranges.  Every
  concrete string evaluated in this development keeps the same matching
  behaviour under full Unicode folding, and no symbolic theorem depends
  on the folding of non-ASCII letters.
* `pandas` missing values (`pd.NA`) become `Option.none`; the dataframe
  group-and-sort steps are embedded over association lists, with sorting
  by `List.insertionSort` (the sort keys involved are pairwise distinct,
  so the sorted output is uniquely determined and stability is moot).
* File and clipboard I/O, the OpenAI calls and CLI parsing are outside
  the embedded core: parsers take the list of lines, the mergers take the
  parsed entry lists.
-/

/-! ### Character helpers (Python `str` / `re` primitives) -/

/-- ASCII lowering, the model of Python case-insensitive matching for the
ASCII patterns used in this repository. -/
def lowerAscii (c : Char) : Char :=
  if 65 ≤ c.toNat && c.toNat ≤ 90 then Char.ofNat (c.toNat + 32) else c

/-- Python `\s` (and `str.strip`'s notion of whitespace), ASCII portion:
space, tab, newline, carriage return, vertical tab, form feed. -/
def isPySpace (c : Char) : Bool :=
  c == ' ' || c == '\t' || c == '\n' || c == '\r' ||
    c == Char.ofNat 11 || c == Char.ofNat 12

/-- Python `\w` over ASCII: letters, digits, underscore. -/
def isWordChar (c : Char) : Bool :=
  (97 ≤ c.toNat && c.toNat ≤ 122) || (65 ≤ c.toNat && c.toNat ≤ 90) ||
    (48 ≤ c.toNat && c.toNat ≤ 57) || c == '_'

/-- `[A-Z]`. -/
def isAsciiUpper (c : Char) : Bool := 65 ≤ c.toNat && c.toNat ≤ 90

/-- `[A-Za-z]`. -/
def isAsciiAlpha (c : Char) : Bool :=
  (65 ≤ c.toNat && c.toNat ≤ 90) || (97 ≤ c.toNat && c.toNat ≤ 122)

/-- Python `str.strip()` on the character list. -/
def pyStripL (l : List Char) : List Char :=
  ((l.dropWhile isPySpace).reverse.dropWhile isPySpace).reverse

/-- `inst.replace("–", "-").replace("—", "-")`: en/em dash to hyphen. -/
def normDashChar (c : Char) : Char := if c == '–' || c == '—' then '-' else c

def dashNormL (l : List Char) : List Char := l.map normDashChar

/-- `s.split(sep)[0]`: the prefix before the first occurrence of `sep`. -/
def takeUntilChar (sep : Char) (l : List Char) : List Char :=
  l.takeWhile (fun c => c != sep)

/-- `line.split(sep, 1)` for a single-character separator: the part before
the first occurrence and the part after it (whole string and `[]` when the
separator is absent; callers check `sep in line` first, as the scripts do). -/
def splitCharFirst (sep : Char) : List Char → List Char × List Char
  | [] => ([], [])
  | c :: tl =>
    if c == sep then ([], tl)
    else
      let p := splitCharFirst sep tl
      (c :: p.1, p.2)

/-- `s.startswith((p₁, p₂, ...))`. -/
def startsWithAny (ps : List String) (l : List Char) : Bool :=
  ps.any (fun p => p.data.isPrefixOf l)

/-- Lexicographic order on strings by code point — the order Python (and
pandas) uses to compare `str` values. -/
def lexLeB : List Char → List Char → Bool
  | [], _ => true
  | _ :: _, [] => false
  | a :: as, b :: bs =>
    if a.toNat < b.toNat then true
    else if b.toNat < a.toNat then false
    else lexLeB as bs

theorem lexLeB_total : ∀ a b : List Char, lexLeB a b = true ∨ lexLeB b a = true := by
  intro a
  induction a with
  | nil => intro b; exact Or.inl rfl
  | cons x as ih =>
    intro b
    cases b with
    | nil => exact Or.inr rfl
    | cons y bs =>
      rcases Nat.lt_trichotomy x.toNat y.toNat with h | h | h
      · exact Or.inl (by simp [lexLeB, h])
      · rcases ih bs with h2 | h2
        · exact Or.inl (by simp [lexLeB, h, h2])
        · exact Or.inr (by simp [lexLeB, h, h2])
      · exact Or.inr (by simp [lexLeB, h, Nat.lt_asymm h])

theorem lexLeB_trans : ∀ a b c : List Char,
    lexLeB a b = true → lexLeB b c = true → lexLeB a c = true := by
  intro a
  induction a with
  | nil => intro b c _ _; rfl
  | cons x as ih =>
    intro b c hab hbc
    cases b with
    | nil => simp [lexLeB] at hab
    | cons y bs =>
      cases c with
      | nil => simp [lexLeB] at hbc
      | cons z cs =>
        simp only [lexLeB] at hab hbc ⊢
        by_cases hxy : x.toNat < y.toNat
        · have hyz : ¬ z.toNat < y.toNat := by
            intro hzy
            simp [hzy, Nat.lt_asymm hzy] at hbc
          have hxz : x.toNat < z.toNat := by omega
          simp [hxz]
        · by_cases hyx : y.toNat < x.toNat
          · simp [hxy, hyx] at hab
          · by_cases hyz : y.toNat < z.toNat
            · simp [show x.toNat < z.toNat by omega]
            · by_cases hzy : z.toNat < y.toNat
              · simp [hyz, hzy] at hbc
              · rw [if_neg hxy, if_neg hyx] at hab
                rw [if_neg hyz, if_neg hzy] at hbc
                rw [if_neg (show ¬ x.toNat < z.toNat by omega),
                  if_neg (show ¬ z.toNat < x.toNat by omega)]
                exact ih bs cs hab hbc

/-! ### A small regex engine

`RE` is the abstract syntax of the fragment of Python `re` used by the
scripts: literals, character classes, `.`, concatenation, alternation,
greedy `*` (with `+` and `?` as the usual sugar), anchors `^`/`$`, word
boundary `\b` and lookahead `(?=...)`.  Capturing groups only ever wrap
alternations whose captured text is unused, so they are represented by
their bodies. -/

inductive RE where
  | eps
  | lit (c : Char)
  | cls (p : Char → Bool)
  | anyc
  | seq (r₁ r₂ : RE)
  | alt (r₁ r₂ : RE)
  | star (r : RE)
  | bol
  | eol
  | wb
  | look (r : RE)

def RE.size : RE → Nat
  | .eps | .lit _ | .cls _ | .anyc | .bol | .eol | .wb => 1
  | .seq a b | .alt a b => a.size + b.size + 1
  | .star a | .look a => a.size + 1

/-- ASCII case folding on the code point (same fold as `lowerAscii`,
kept on `Nat` so the matcher never rebuilds characters). -/
def lowerNat (n : Nat) : Nat := if 65 ≤ n && n ≤ 90 then n + 32 else n

/-- Single-character comparison; under `re.IGNORECASE` both sides are
ASCII-folded. -/
def charMatch (ci : Bool) (d c : Char) : Bool :=
  if ci then lowerNat d.toNat == lowerNat c.toNat else d == c

/-- `\b`: exactly one of the two neighbouring positions holds a word
character.  `prev` is the character before the current position (`none` at
the start of the subject). -/
def wordBoundary (prev : Option Char) (l : List Char) : Bool :=
  (match prev with | none => false | some c => isWordChar c) !=
    (match l with | [] => false | c :: _ => isWordChar c)

/-- `$` (no `re.M`): end of subject or just before a final newline. -/
def atEol (l : List Char) : Bool := l.isEmpty || l == ['\n']

/-- Backtracking matcher.  `runRE ci fuel re prev l` returns, in Python's
preference order (left alternative first, greedy star longest first), the
list of `(last consumed character, remaining suffix)` outcomes of matching
`re` at the start of `l`.  `fuel` decreases at every recursive call so
that the definition is structural (and hence evaluable by the kernel); a
star iteration is only taken when it consumed input, so the recursion
depth is below `(l.length + 1) * (re.size + 1)` and the ample `reFuel`
passed by all wrappers is never exhausted. -/
def runRE (ci : Bool) : Nat → RE → Option Char → List Char → List (Option Char × List Char)
  | 0, _, _, _ => []
  | _ + 1, .eps, p, l => [(p, l)]
  | _ + 1, .lit _, _, [] => []
  | _ + 1, .lit c, _, d :: rest => if charMatch ci d c then [(some d, rest)] else []
  | _ + 1, .cls _, _, [] => []
  | _ + 1, .cls q, _, d :: rest => if q d then [(some d, rest)] else []
  | _ + 1, .anyc, _, [] => []
  | _ + 1, .anyc, _, d :: rest => if d == '\n' then [] else [(some d, rest)]
  | fuel + 1, .seq a b, p, l =>
    (runRE ci fuel a p l).flatMap fun pr => runRE ci fuel b pr.1 pr.2
  | fuel + 1, .alt a b, p, l => runRE ci fuel a p l ++ runRE ci fuel b p l
  | fuel + 1, .star a, p, l =>
    ((runRE ci fuel a p l).flatMap fun pr =>
      if pr.2.length < l.length then runRE ci fuel (.star a) pr.1 pr.2 else []) ++ [(p, l)]
  | _ + 1, .bol, p, l => if p.isNone then [(p, l)] else []
  | _ + 1, .eol, p, l => if atEol l then [(p, l)] else []
  | _ + 1, .wb, p, l => if wordBoundary p l then [(p, l)] else []
  | fuel + 1, .look a, p, l => if (runRE ci fuel a p l).isEmpty then [] else [(p, l)]

def reFuel (re : RE) (l : List Char) : Nat := (l.length + 1) * (re.size + 1) + 1

/-- Does `re` match starting exactly at the current position? -/
def reMatchesAt (ci : Bool) (re : RE) (prev : Option Char) (l : List Char) : Bool :=
  !(runRE ci (reFuel re l) re prev l).isEmpty

/-- `re.search(pat, s) is not None`: try each start position left to
right. -/
def reSearchGo (ci : Bool) (re : RE) : Option Char → List Char → Bool
  | prev, [] => reMatchesAt ci re prev []
  | prev, c :: tl => reMatchesAt ci re prev (c :: tl) || reSearchGo ci re (some c) tl

def reSearch (ci : Bool) (re : RE) (l : List Char) : Bool := reSearchGo ci re none l

/-- `re.sub(pat, repl, s)`: replace every non-overlapping match, scanning
left to right, resuming after each match (after an empty match the next
character is copied and scanning advances by one, as in Python). -/
def reSubGo (ci : Bool) (re : RE) (repl : List Char) :
    Nat → Option Char → List Char → List Char
  | 0, _, l => l
  | fuel + 1, prev, l =>
    match runRE ci (reFuel re l) re prev l with
    | (p', rest) :: _ =>
      if l.length - rest.length = 0 then
        -- empty match: Python emits the replacement and advances one char
        match l with
        | [] => repl
        | c :: tl => repl ++ c :: reSubGo ci re repl fuel (some c) tl
      else repl ++ reSubGo ci re repl fuel p' rest
    | [] =>
      match l with
      | [] => []
      | c :: tl => c :: reSubGo ci re repl fuel (some c) tl

/-- `re.sub(pat, repl, s)` (see `reSubGo`); the scan advances at least one
character per step, so `l.length + 1` fuel is never exhausted. -/
def reSubAll (ci : Bool) (re : RE) (repl : List Char) (l : List Char) : List Char :=
  reSubGo ci re repl (l.length + 1) none l

/-- `re.split(pat, s, maxsplit=1)[0]`: the prefix before the first match
(the whole string when there is none). -/
def reSplitHeadGo (ci : Bool) (re : RE) : Option Char → List Char → List Char
  | _, [] => []
  | prev, c :: tl =>
    if reMatchesAt ci re prev (c :: tl) then []
    else c :: reSplitHeadGo ci re (some c) tl

def reSplitHead (ci : Bool) (re : RE) (l : List Char) : List Char :=
  reSplitHeadGo ci re none l

/-! Smart constructors mirroring the pattern syntax. -/

def reOfList : List Char → RE
  | [] => .eps
  | c :: tl => .seq (.lit c) (reOfList tl)

/-- A literal pattern fragment. -/
def reStr (s : String) : RE := reOfList s.data

/-- `\bX\b`. -/
def reWordAnch (s : String) : RE := .seq .wb (.seq (reStr s) .wb)

/-- `X?` (greedy). -/
def reOpt (r : RE) : RE := .alt r .eps

/-- `^X$`. -/
def reAnchored (s : String) : RE := .seq .bol (.seq (reStr s) .eol)

/-- `\s`. -/
def spCls : RE := .cls isPySpace

/-- `\s*`. -/
def sp0 : RE := .star spCls

/-- `\s+`. -/
def sp1 : RE := .seq spCls sp0

/-- `X+`. -/
def rePlus (r : RE) : RE := .seq r (.star r)

def reSeqs (rs : List RE) : RE := rs.foldr .seq .eps

def reAlts : List RE → RE
  | [] => .eps
  | [r] => r
  | r :: tl => .alt r (reAlts tl)

/-! ### `main_stanford.py` -/

namespace MainStanford

/-- The `ALIASES` table of `main_stanford.py`, in source order; each entry
is the transcription of the regex key paired with its replacement. -/
def ALIASES : List (RE × String) :=
  [ (reWordAnch "MIT", "Massachusetts Institute of Technology"),
    (reWordAnch "Caltech", "California Institute of Technology"),
    (reWordAnch "CMU", "Carnegie Mellon University"),
    (reSeqs [.wb, reStr "Georgia", sp0, reStr "Tech", .wb],
      "Georgia Institute of Technology"),
    (reWordAnch "UW", "University of Washington"),
    (reSeqs [.wb, .lit 'U', reOpt (.lit '.'), sp0, reStr "Chicago", .wb],
      "University of Chicago"),
    (.alt (reSeqs [.wb, reStr "UC", sp0, reStr "Berkeley", .wb]) (reWordAnch "UCB"),
      "University of California, Berkeley"),
    (reAlts [reWordAnch "UCSD",
        reSeqs [.wb, reStr "UC", sp0, reStr "San", sp0, reStr "Diego", .wb],
        reAnchored "University of California San Diego"],
      "University of California, San Diego"),
    (reWordAnch "UCLA", "University of California, Los Angeles"),
    (reSeqs [.wb, reStr "UC", sp0, reStr "Davis", .wb], "University of California, Davis"),
    (reWordAnch "UCI", "University of California, Irvine"),
    (reWordAnch "UCSB", "University of California, Santa Barbara"),
    (reStr "University of Illinois at Urbana-Champaign",
      "University of Illinois Urbana-Champaign"),
    (reAnchored "The University of North Carolina at Chapel Hill",
      "University of North Carolina at Chapel Hill"),
    (reAnchored "The University of Sydney", "University of Sydney"),
    (reAnchored "Brown University and Rhode Island School of Design", "Brown University"),
    (reSeqs [.bol, reOpt (.seq (reStr "The") sp1),
        reStr "Hong Kong University of Science and Technology", .eol],
      "The Hong Kong University of Science and Technology"),
    (reAnchored "The University of Hong Kong", "University of Hong Kong"),
    (reStr "University of Sao Paulo", "University of São Paulo"),
    (reAnchored "Birla Institute of Technology and Science, Pilani - Goa Campus",
      "Birla Institute of Technology and Science"),
    (reAnchored "École Polytechnique Fédérale de Lausanne",
      "Ecole Polytechnique Federale de Lausanne"),
    (reWordAnch "SJTU", "Shanghai Jiao Tong University"),
    (reWordAnch "USTC", "University of Science and Technology of China"),
    (reSeqs [.wb, reStr "BIT", reOpt (.lit 'S'), sp0, reStr "Pilani", .wb],
      "Birla Institute of Technology and Science"),
    (reWordAnch "POSTECH", "Pohang University of Science and Technology"),
    (reWordAnch "EPFL", "Ecole Polytechnique Federale de Lausanne"),
    (reAnchored "Harvard College", "Harvard University") ]

/-- `MISSING_PAT = re.compile(r"(not\s*(found|available)|^n/?a$|unknown)", re.I)`. -/
def MISSING_PAT : RE :=
  reAlts [ reSeqs [reStr "not", sp0, .alt (reStr "found") (reStr "available")],
           reSeqs [.bol, .lit 'n', reOpt (.lit '/'), .lit 'a', .eol],
           reStr "unknown" ]

/-- `re.sub(r"^The\s+", "", inst, flags=re.I)`. -/
def thePat : RE := reSeqs [.bol, reStr "The", sp1]

/-- `re.split(r"\s+and\s+(?=(University|College|Institut|School|Polytechnic))", inst, maxsplit=1)`. -/
def andSplitPat : RE :=
  reSeqs [sp1, reStr "and", sp1,
    .look (reAlts [reStr "University", reStr "College", reStr "Institut",
      reStr "School", reStr "Polytechnic"])]

end MainStanford

/-- `re.sub(r"\([^)]*\)", " ", inst)`: balanced parenthetical. -/
def parenBalPat : RE := reSeqs [.lit '(', .star (.cls (fun c => c != ')')), .lit ')']

/-- `re.sub(r"\s*\(.*$", "", inst)`: dangling opening parenthesis. -/
def parenDanglePat : RE := reSeqs [sp0, .lit '(', .star .anyc, .eol]

/-- `re.sub(r",\s*[A-Z][A-Za-z.\s]+$", "", inst)`: trailing
`", Country / City / Campus"` qualifier. -/
def trailingLocPat : RE :=
  reSeqs [.lit ',', sp0, .cls isAsciiUpper,
    rePlus (.cls (fun c => isAsciiAlpha c || c == '.' || isPySpace c)), .eol]

/-- The protected prefixes of the trailing-locality rule, shared by all
canonicalisers in the repository. -/
def protectedPrefixes : List String :=
  ["University of California,", "University of Maryland,"]

/-- Apply an alias table the way every script does: scan in order, fire
the first pattern that `re.search`-matches (case-insensitively),
substitute all its occurrences, stop scanning. -/
def applyAliases (tbl : List (RE × String)) (l : List Char) : List Char :=
  match tbl.find? (fun pr => reSearch true pr.1 l) with
  | some pr => reSubAll true pr.1 pr.2.data l
  | none => l

namespace MainStanford

/-- `canonicalise_school` of `main_stanford.py` on the character list.
The empty string is the script's missing sentinel. -/
def canonicaliseCore (inst0 : List Char) : List Char :=
  let inst := pyStripL inst0
  if inst.isEmpty || reSearch true MISSING_PAT inst then []
  else
    let inst := dashNormL inst
    let inst := reSubAll true thePat [] inst
    let inst := pyStripL (takeUntilChar ';' inst)
    let inst := applyAliases ALIASES inst
    let inst := pyStripL (takeUntilChar '&' inst)
    let inst := pyStripL (reSplitHead false andSplitPat inst)
    let inst := reSubAll false parenBalPat [' '] inst
    let inst := reSubAll false parenDanglePat [] inst
    let inst := pyStripL (reSubAll false sp1 [' '] inst)
    let inst :=
      if startsWithAny protectedPrefixes inst then inst
      else pyStripL (reSubAll false trailingLocPat [] inst)
    inst

def canonicalise_school (inst : String) : String :=
  String.mk (canonicaliseCore inst.data)

end MainStanford

/-! ### Association-list helpers (Python `dict` / `Counter`) -/

/-- `d.get(k)` / `k in d` on an insertion-ordered association list. -/
def alGet? {β : Type} : List (String × β) → String → Option β
  | [], _ => none
  | e :: tl, k => if e.1 == k then some e.2 else alGet? tl k

/-- `d[k] = v`: overwrite in place, or append a new key. -/
def alInsert {β : Type} : List (String × β) → String → β → List (String × β)
  | [], k, v => [(k, v)]
  | e :: tl, k, v => if e.1 == k then (k, v) :: tl else e :: alInsert tl k v

/-- `counter[k] += 1` on a `collections.Counter` (missing keys count 0 and
are appended in insertion order). -/
def bump : List (String × Nat) → String → List (String × Nat)
  | [], k => [(k, 1)]
  | e :: tl, k => if e.1 == k then (e.1, e.2 + 1) :: tl else e :: bump tl k

namespace MainStanford

/-- One line of `parse_processed_lines`: lines without `"|"` are skipped,
the rest are split at the first `"|"` and both parts stripped; the line
yields a record when the school part is non-empty (`if school:`). -/
def lineRecord? (line : String) : Option (String × String) :=
  if line.data.contains '|' then
    let p := splitCharFirst '|' line.data
    let name := String.mk (pyStripL p.1)
    let school := String.mk (pyStripL p.2)
    if school ≠ "" then some (name, school) else none
  else none

/-- `parse_processed_lines`, over the already-read list of lines. -/
def parse_processed_lines (lines : List String) : List (String × String) :=
  lines.filterMap lineRecord?

/-- The loop state of `tally_schools` (its four result values plus the
`seen_names` dict). -/
structure TallyState where
  counter : List (String × Nat)
  seen_names : List (String × String)
  skipped_duplicates : Nat
  skipped_missing : Nat
  conflicts : List (String × String × String)
deriving DecidableEq

def initialTally : TallyState := ⟨[], [], 0, 0, []⟩

/-- One iteration of the `tally_schools` loop body. -/
def tallyStep (st : TallyState) (rec : String × String) : TallyState :=
  let canon := canonicalise_school rec.2
  if canon = "" then { st with skipped_missing := st.skipped_missing + 1 }
  else
    match alGet? st.seen_names rec.1 with
    | some prev =>
      if prev = canon then { st with skipped_duplicates := st.skipped_duplicates + 1 }
      else { st with conflicts := st.conflicts ++ [(rec.1, prev, canon)] }
    | none =>
      { st with seen_names := st.seen_names ++ [(rec.1, canon)],
                counter := bump st.counter canon }

/-- `tally_schools`, over the parsed records (the script reads them from
`input_path` via `parse_processed_lines`). -/
def tally_schools (recs : List (String × String)) : TallyState :=
  recs.foldl tallyStep initialTally

/-- `Counter.most_common()`: stable sort by descending count (Python's
`sorted(..., key=itemgetter(1), reverse=True)` keeps insertion order on
ties, as does `insertionSort` with this reflexive relation). -/
def mostCommon (counter : List (String × Nat)) : List (String × Nat) :=
  List.insertionSort (fun a b => b.2 ≤ a.2) counter

/-- The table rows written by `save_counts` (after its two header lines). -/
def save_counts_rows (counter : List (String × Nat)) : List String :=
  (mostCommon counter).map (fun e => e.1 ++ " | " ++ toString e.2)

end MainStanford

/-! ### `main.py` and `main_cmu.py`

The two clipboard scripts share the same sixteen-entry `ALIASES` text
(`main_cmu.py` appends two dash-variant entries); both return `pd.NA`
(here `none`) for missing values. -/

/-- The sixteen alias entries common to `main.py` and `main_cmu.py`. -/
def aliasesCommon : List (RE × String) :=
  [ (reWordAnch "MIT", "Massachusetts Institute of Technology"),
    (reWordAnch "Caltech", "California Institute of Technology"),
    (reWordAnch "CMU", "Carnegie Mellon University"),
    (reSeqs [.wb, reStr "Georgia", sp0, reStr "Tech", .wb],
      "Georgia Institute of Technology"),
    (reWordAnch "UW", "University of Washington"),
    (.alt (reSeqs [.wb, reStr "UC", sp0, reStr "Berkeley", .wb]) (reWordAnch "UCB"),
      "University of California, Berkeley"),
    (reWordAnch "UCSD", "University of California, San Diego"),
    (reWordAnch "UCLA", "University of California, Los Angeles"),
    (reSeqs [.wb, reStr "UC", sp0, reStr "Davis", .wb], "University of California, Davis"),
    (reWordAnch "UCI", "University of California, Irvine"),
    (reWordAnch "UCSB", "University of California, Santa Barbara"),
    (reWordAnch "SJTU", "Shanghai Jiao Tong University"),
    (reWordAnch "USTC", "University of Science and Technology of China"),
    (reSeqs [.wb, reStr "BIT", reOpt (.lit 'S'), sp0, reStr "Pilani", .wb],
      "Birla Institute of Technology and Science"),
    (reWordAnch "POSTECH", "Pohang University of Science and Technology"),
    (reWordAnch "EPFL", "École Polytechnique Fédérale de Lausanne") ]

/-- `re.fullmatch(r"-+", inst)`. -/
def isDashRun (l : List Char) : Bool := !l.isEmpty && l.all (· == '-')

/-- `return inst or pd.NA`, the shared tail of the pandas
canonicalisers. -/
def orNA (l : List Char) : Option (List Char) := if l.isEmpty then none else some l

namespace MainPy

def ALIASES : List (RE × String) := aliasesCommon

/-- `MISSING_PAT = re.compile(r"(not\s*(found|available)|^n/?a$)", re.I)`
(note: no `unknown` alternative in `main.py`). -/
def MISSING_PAT : RE :=
  reAlts [ reSeqs [reStr "not", sp0, .alt (reStr "found") (reStr "available")],
           reSeqs [.bol, .lit 'n', reOpt (.lit '/'), .lit 'a', .eol] ]

/-- `not inst or re.fullmatch(r"-+", inst) or MISSING_PAT.search(inst)`. -/
def missingCheck (inst : List Char) : Bool :=
  inst.isEmpty || isDashRun inst || reSearch true MISSING_PAT inst

/-- The cleanup chain of `canonical` in `main.py` after the missing-value
check: alias expansion, `split("&")[0].strip()`, parenthetical removal,
whitespace collapse and (outside the protected prefixes) trailing-locality
stripping — the successive reassignments of `inst`. -/
def cleanup (inst0 : List Char) : List Char :=
  let inst := applyAliases ALIASES inst0
  let inst := pyStripL (takeUntilChar '&' inst)
  let inst := reSubAll false parenBalPat [' '] inst
  let inst := reSubAll false parenDanglePat [] inst
  let inst := pyStripL (reSubAll false sp1 [' '] inst)
  if startsWithAny protectedPrefixes inst then inst
  else pyStripL (reSubAll false trailingLocPat [] inst)

/-- `canonical` of `main.py` (the `pd.isna` guard is outside the string
domain; `pd.NA` results are `none`). -/
def canonicalCore (inst0 : List Char) : Option (List Char) :=
  if missingCheck (pyStripL inst0) then none
  else orNA (cleanup (pyStripL inst0))

def canonical (s : String) : Option String := (canonicalCore s.data).map String.mk

end MainPy

namespace MainCmu

/-- `ALIASES` of `main_cmu.py`: the common sixteen entries plus the two
dash-variant aliases. -/
def ALIASES : List (RE × String) :=
  aliasesCommon ++
    [ (reSeqs [reStr "University of Illinois at Urbana",
          .cls (fun c => c == '–' || c == '-'), reStr "Champaign"],
        "University of Illinois at Urbana-Champaign"),
      (reSeqs [reStr "University of Maryland", reOpt (.lit ','), reStr " Baltimore County"],
        "University of Maryland, Baltimore County") ]

/-- The body of
`MISSING_PAT = re.compile(r"^(unknown|undergrad institution not found|institution not confirmed|not\s*(found|available)|n/?a)$", re.I)`
matched against a whole, already ASCII-lowercased string.  `n/?a` matches
exactly `n/a` and `na`; `not\s*(found|available)` is `not`, then
whitespace, then `found`/`available` (the `\s*` backtracking alternatives
are equivalent to consuming all whitespace, since neither tail starts
with whitespace). -/
def missingCoreLower (l : List Char) : Bool :=
  l == "unknown".data || l == "undergrad institution not found".data ||
    l == "institution not confirmed".data ||
    ("not".data.isPrefixOf l &&
      (let r := (l.drop 3).dropWhile isPySpace
       r == "found".data || r == "available".data)) ||
    l == "n/a".data || l == "na".data

/-- `MISSING_PAT.fullmatch(inst)` of `main_cmu.py`. -/
def missingFullmatch (l : List Char) : Bool := missingCoreLower (l.map lowerAscii)

/-- `not inst or re.fullmatch(r"-+", inst) or MISSING_PAT.fullmatch(inst)`. -/
def missingCheck (inst : List Char) : Bool :=
  inst.isEmpty || isDashRun inst || missingFullmatch inst

/-- The cleanup chain of `canonical` in `main_cmu.py` after the
missing-value check: `re.split(r"[;&]", inst)[0].strip()` (the prefix
before the first `;` or `&`), alias expansion, parenthetical removal,
whitespace collapse and (outside the protected prefixes) trailing-locality
stripping — the successive reassignments of `inst`. -/
def cleanup (inst0 : List Char) : List Char :=
  let inst := pyStripL (inst0.takeWhile (fun c => c != ';' && c != '&'))
  let inst := applyAliases ALIASES inst
  let inst := reSubAll false parenBalPat [' '] inst
  let inst := reSubAll false parenDanglePat [] inst
  let inst := pyStripL (reSubAll false sp1 [' '] inst)
  if startsWithAny protectedPrefixes inst then inst
  else pyStripL (reSubAll false trailingLocPat [] inst)

/-- `canonical` of `main_cmu.py`: strip, normalise dashes, return `NA` on
missing values, else clean up and return `inst or pd.NA`. -/
def canonicalCore (inst0 : List Char) : Option (List Char) :=
  if missingCheck (dashNormL (pyStripL inst0)) then none
  else orNA (cleanup (dashNormL (pyStripL inst0)))

def canonical (s : String) : Option String := (canonicalCore s.data).map String.mk

/-- The row order of
`sort_values(["Student Count", "Inst_canon"], ascending=[False, True])`:
count descending, ties by institution name ascending (by code point, as
Python compares strings). -/
def rowLe (a b : String × Nat) : Prop :=
  b.2 < a.2 ∨ (a.2 = b.2 ∧ lexLeB a.1.data b.1.data = true)

instance : DecidableRel rowLe := fun a b => by
  unfold rowLe
  infer_instance

instance : IsTotal (String × Nat) rowLe := by
  constructor
  intro a b
  rcases Nat.lt_trichotomy a.2 b.2 with h | h | h
  · exact Or.inr (Or.inl h)
  · rcases lexLeB_total a.1.data b.1.data with hs | hs
    · exact Or.inl (Or.inr ⟨h, hs⟩)
    · exact Or.inr (Or.inr ⟨h.symm, hs⟩)
  · exact Or.inl (Or.inl h)

instance : IsTrans (String × Nat) rowLe := by
  constructor
  intro a b c hab hbc
  rcases hab with h1 | ⟨h1, hs1⟩ <;> rcases hbc with h2 | ⟨h2, hs2⟩
  · exact Or.inl (h2.trans h1)
  · exact Or.inl (h2 ▸ h1)
  · exact Or.inl (h1 ▸ h2)
  · exact Or.inr ⟨h1.trans h2, lexLeB_trans _ _ _ hs1 hs2⟩

/-- The `overall` table of `main_cmu.py`, from the raw institution column:
apply `canonical`, drop `NA` rows, group by the canonical value (pandas
`groupby` sorts the group keys), then
`sort_values(["Student Count", "Inst_canon"], ascending=[False, True])`.
The group keys are pairwise distinct, so (count desc, name asc) is a total
order on the rows and the sorted result is unique — independent of the
sorting algorithm pandas uses. -/
def overall (insts : List String) : List (String × Nat) :=
  let canonList := insts.filterMap canonical
  let keys := List.insertionSort (fun a b : String => lexLeB a.data b.data = true) canonList.dedup
  let grouped := keys.map (fun k => (k, canonList.count k))
  List.insertionSort rowLe grouped

end MainCmu

/-! ### `gpt5_web_search.py` (parsing and merge; the model calls are
external collaborators) -/

namespace Gpt5WebSearch

/-- One line of `parse_processed_file`: skip lines without `"|"`, split at
the first `"|"`, strip both parts, keep the entry when the name part is
non-empty (`if name:`). -/
def lineEntry? (line : String) : Option (String × String) :=
  if line.data.contains '|' then
    let p := splitCharFirst '|' line.data
    let name := String.mk (pyStripL p.1)
    let school := String.mk (pyStripL p.2)
    if name ≠ "" then some (name, school) else none
  else none

/-- `parse_processed_file`, over the already-read list of lines. -/
def parse_processed_file (lines : List String) : List (String × String) :=
  lines.filterMap lineEntry?

/-- `school.lower()` (ASCII model, see the header note). -/
def lowerStr (s : String) : String := String.mk (s.data.map lowerAscii)

/-- `school and school.lower() != "unknown"`: an update entry worth
recording. -/
def updOk (s : String) : Bool := s != "" && lowerStr s != "unknown"

/-- The `updates` dict of `merge_processed_files`: latest non-unknown
entry for each name wins (dict assignment, files and lines in order). -/
def buildUpdates (updates : List (List (String × String))) : List (String × String) :=
  updates.foldl
    (fun d entries =>
      entries.foldl (fun d e => if updOk e.2 then alInsert d e.1 e.2 else d) d) []

/-- One output line of `merge_processed_files` for a base entry:
`f"{name} | {school if school else 'unknown'}"` after the unresolved
lookup. -/
def mergedLine (upd : List (String × String)) (e : String × String) : String :=
  let school := if e.2 = "" ∨ lowerStr e.2 = "unknown" then (alGet? upd e.1).getD e.2 else e.2
  e.1 ++ " | " ++ (if school = "" then "unknown" else school)

/-- `merge_processed_files`, over the two parsed entry lists (the script
obtains them from the file paths via `parse_processed_file`). -/
def merge_processed_files (base : List (String × String))
    (updates : List (List (String × String))) : List String :=
  base.map (mergedLine (buildUpdates updates))

/-- Modelled from the spec for the refinement statement of the merge
claim: "a non-placeholder value from the latest update that has one" —
the last entry for the name, across the concatenated update lists, whose
school is non-empty and not (case-insensitively) `unknown`. -/
def spec_latest_update (updates : List (List (String × String))) (n : String) :
    Option String :=
  (((updates.flatten.filter fun e => updOk e.2).reverse.find? fun e => e.1 == n).map (·.2))

/-- Modelled from the spec: the merged line for a base entry — unresolved
base schools (empty or `unknown`) are replaced by the latest
non-placeholder update value when one exists, resolved base schools are
left unchanged, and an empty school field is printed as `unknown`. -/
def spec_merged_line (updates : List (List (String × String))) (e : String × String) :
    String :=
  if e.2 = "" ∨ lowerStr e.2 = "unknown" then
    match spec_latest_update updates e.1 with
    | some v => e.1 ++ " | " ++ v
    | none => e.1 ++ " | " ++ (if e.2 = "" then "unknown" else e.2)
  else e.1 ++ " | " ++ e.2

end Gpt5WebSearch

/-! ### `other_universities/main_mit.py` (record extraction) -/

namespace MainMit

/-- One line of the `records` loop in `main_mit.py`: skip lines without
`"|"`, split at the first `"|"`, strip both parts, and drop the line when
either part is empty (`if not name or not inst: continue`). -/
def lineRecord? (line : String) : Option (String × String) :=
  if line.data.contains '|' then
    let p := splitCharFirst '|' line.data
    let name := String.mk (pyStripL p.1)
    let inst := String.mk (pyStripL p.2)
    if name ≠ "" ∧ inst ≠ "" then some (name, inst) else none
  else none

/-- The `records` list of `main_mit.py`, over the raw lines. -/
def records (lines : List String) : List (String × String) :=
  lines.filterMap lineRecord?

end MainMit

/-! ### General helper lemmas -/

theorem stringMk_ne_empty {l : List Char} (h : l ≠ []) : String.mk l ≠ "" := by
  intro hc
  exact h (by simpa using congrArg String.data hc)

theorem listIsEmpty_false_iff {α : Type} {l : List α} : l.isEmpty = false ↔ l ≠ [] := by
  cases l <;> simp

/-- `splitCharFirst` splits at the first occurrence of the separator. -/
theorem splitCharFirst_append {sep : Char} {a : List Char} (b : List Char) (h : sep ∉ a) :
    splitCharFirst sep (a ++ sep :: b) = (a, b) := by
  induction a with
  | nil => simp [splitCharFirst]
  | cons c tl ih =>
    simp only [List.mem_cons, not_or] at h
    simp [splitCharFirst, Ne.symm h.1, ih h.2]

theorem alGet?_alInsert {β : Type} (d : List (String × β)) (k n : String) (v : β) :
    alGet? (alInsert d k v) n = if k == n then some v else alGet? d n := by
  induction d with
  | nil => simp [alInsert, alGet?]
  | cons e tl ih =>
    by_cases hek : e.1 = k
    · simp only [alInsert, hek, beq_self_eq_true, if_true]
      by_cases hkn : k = n
      · simp [alGet?, hkn]
      · simp [alGet?, hkn, hek, alGet?]
    · simp only [alInsert, beq_iff_eq, hek, if_false]
      by_cases hen : e.1 = n
      · have : ¬ k = n := fun hkn => hek (hkn ▸ hen)
        simp [alGet?, hen, this]
      · simp [alGet?, hen, ih]

theorem orNA_shape (x : List Char) :
    orNA x = none ∨ ∃ m, orNA x = some m ∧ m ≠ [] := by
  unfold orNA
  split
  · exact Or.inl rfl
  · next h => exact Or.inr ⟨x, rfl, listIsEmpty_false_iff.mp (by simpa using h)⟩

theorem cmuCore_shape (l : List Char) :
    MainCmu.canonicalCore l = none ∨
      ∃ m, MainCmu.canonicalCore l = some m ∧ m ≠ [] := by
  unfold MainCmu.canonicalCore
  split
  · exact Or.inl rfl
  · exact orNA_shape _

theorem pyCore_shape (l : List Char) :
    MainPy.canonicalCore l = none ∨
      ∃ m, MainPy.canonicalCore l = some m ∧ m ≠ [] := by
  unfold MainPy.canonicalCore
  split
  · exact Or.inl rfl
  · exact orNA_shape _

/-- **C9.** `canonicalize` is total over all string inputs — in this
embedding both pandas canonicalisers are Lean functions, defined (hence
terminating, never raising) on every `String` — and each returns either
the `Unresolved` sentinel (`none`, the model of `pd.NA`) or a non-empty
canonical string; in particular, when the cleanup chain empties the
string, the `inst or pd.NA` tail yields `none`.  (`main_stanford.py`'s
variant uses the empty string itself as its sentinel, so the dichotomy is
immediate there.) -/
theorem canonical_total_nonempty_or_unresolved :
    (∀ s : String, MainCmu.canonical s = none ∨
      ∃ c, MainCmu.canonical s = some c ∧ c ≠ "") ∧
    (∀ s : String, MainPy.canonical s = none ∨
      ∃ c, MainPy.canonical s = some c ∧ c ≠ "") := by
  constructor
  · intro s
    rcases cmuCore_shape s.data with h | ⟨m, hm, hne⟩
    · exact Or.inl (by simp [MainCmu.canonical, h])
    · exact Or.inr ⟨String.mk m, by simp [MainCmu.canonical, hm], stringMk_ne_empty hne⟩
  · intro s
    rcases pyCore_shape s.data with h | ⟨m, hm, hne⟩
    · exact Or.inl (by simp [MainPy.canonical, h])
    · exact Or.inr ⟨String.mk m, by simp [MainPy.canonical, hm], stringMk_ne_empty hne⟩

/-- **C6.** The name-deduplicating aggregation step of `tally_schools`,
for a record whose school canonicalises to a resolved (non-empty) value:
an unseen name is recorded in `seen_names` and its school's count is
incremented; a seen name with the same canonical school changes neither
the counter, the mapping nor the conflicts (only the duplicate statistic);
a seen name with a different canonical school appends the conflict tuple
`(name, first school, new school)` and leaves the counter and the mapping
unchanged.  The step is a total Lean function, so no error is ever
raised; `tally_schools` folds it over the records in input order. -/
theorem tally_step_dedupe_cases (st : MainStanford.TallyState) (name school : String)
    (h : MainStanford.canonicalise_school school ≠ "") :
    (alGet? st.seen_names name = none →
      MainStanford.tallyStep st (name, school) =
        { st with
            seen_names := st.seen_names ++ [(name, MainStanford.canonicalise_school school)],
            counter := bump st.counter (MainStanford.canonicalise_school school) }) ∧
    (alGet? st.seen_names name = some (MainStanford.canonicalise_school school) →
      MainStanford.tallyStep st (name, school) =
        { st with skipped_duplicates := st.skipped_duplicates + 1 }) ∧
    (∀ prev, alGet? st.seen_names name = some prev →
      prev ≠ MainStanford.canonicalise_school school →
      MainStanford.tallyStep st (name, school) =
        { st with
            conflicts := st.conflicts ++
              [(name, prev, MainStanford.canonicalise_school school)] }) := by
  refine ⟨?_, ?_, ?_⟩
  · intro hseen
    simp [MainStanford.tallyStep, h, hseen]
  · intro hseen
    simp [MainStanford.tallyStep, h, hseen]
  · intro prev hseen hne
    simp [MainStanford.tallyStep, h, hseen, hne]

/-- Witness for C6: the first-occurrence case at a concrete state and
record. -/
theorem tally_step_dedupe_cases_witness :
    MainStanford.tallyStep MainStanford.initialTally ("A", "MIT") =
      { MainStanford.initialTally with
          seen_names := [] ++ [("A", MainStanford.canonicalise_school "MIT")],
          counter := bump [] (MainStanford.canonicalise_school "MIT") } :=
  (tally_step_dedupe_cases MainStanford.initialTally "A" "MIT" (by decide)).1 rfl

theorem mergedLine_shape (u : List (String × String)) (e : String × String) :
    ∃ n s, Gpt5WebSearch.mergedLine u e = n ++ " | " ++ s ∧ s ≠ "" := by
  by_cases hc : e.2 = "" ∨ Gpt5WebSearch.lowerStr e.2 = "unknown"
  · by_cases h2 : (alGet? u e.1).getD e.2 = ""
    · exact ⟨e.1, "unknown", by simp [Gpt5WebSearch.mergedLine, hc, h2], by decide⟩
    · exact ⟨e.1, (alGet? u e.1).getD e.2, by simp [Gpt5WebSearch.mergedLine, hc, h2], h2⟩
  · push_neg at hc
    exact ⟨e.1, e.2, by simp [Gpt5WebSearch.mergedLine, hc.1, hc.2], hc.1⟩

/-- **C10.** Every line emitted by `merge_processed_files` has a non-empty
school field: when the base school is empty (and, more generally, whenever
the selected school is empty) the literal `"unknown"` is written in its
place, so a merged output line never ends in an empty field. -/
theorem merge_line_school_nonempty (base : List (String × String))
    (updates : List (List (String × String))) (x : String)
    (hx : x ∈ Gpt5WebSearch.merge_processed_files base updates) :
    ∃ n s, x = n ++ " | " ++ s ∧ s ≠ "" := by
  rcases List.mem_map.mp hx with ⟨e, _, rfl⟩
  exact mergedLine_shape _ e

/-- Witness for C10: a base entry with an empty school and no updates. -/
theorem merge_line_school_nonempty_witness :
    ∃ n s, ("X | unknown" : String) = n ++ " | " ++ s ∧ s ≠ "" :=
  merge_line_school_nonempty [("X", "")] [] "X | unknown" (by decide)

namespace Gpt5WebSearch

/-- The latest usable update entry for `n` within a single flat entry
list. -/
def updLatest (es : List (String × String)) (n : String) : Option String :=
  (((es.filter fun e => updOk e.2).reverse.find? fun e => e.1 == n).map (·.2))

theorem updLatest_append (l1 l2 : List (String × String)) (n : String) :
    updLatest (l1 ++ l2) n = (updLatest l2 n).or (updLatest l1 n) := by
  unfold updLatest
  rw [List.filter_append, List.reverse_append, List.find?_append]
  cases (List.find? (fun e => e.1 == n) (List.filter (fun e => updOk e.2) l2).reverse) <;> simp

theorem alGet?_updStep (d : List (String × String)) (e : String × String) (n : String) :
    alGet? (if updOk e.2 then alInsert d e.1 e.2 else d) n =
      (if updOk e.2 && (e.1 == n) then some e.2 else none).or (alGet? d n) := by
  by_cases hok : updOk e.2
  · rw [if_pos hok, alGet?_alInsert]
    by_cases hn : e.1 == n
    · simp [hok, hn]
    · simp [hok, hn]
  · simp [hok]

theorem updLatest_cons (e : String × String) (tl : List (String × String)) (n : String) :
    updLatest (e :: tl) n =
      (updLatest tl n).or (if updOk e.2 && (e.1 == n) then some e.2 else none) := by
  unfold updLatest
  by_cases hok : updOk e.2
  · rw [List.filter_cons_of_pos (by simpa using hok), List.reverse_cons, List.find?_append]
    cases List.find? (fun e => e.1 == n) (List.filter (fun e => updOk e.2) tl).reverse with
    | none => by_cases hn : e.1 == n <;> simp [List.find?, hn, hok]
    | some v => simp
  · rw [List.filter_cons_of_neg (by simpa using hok)]
    simp [hok]

theorem alGet?_foldl_updates (es : List (String × String)) (d : List (String × String))
    (n : String) :
    alGet? (es.foldl (fun d e => if updOk e.2 then alInsert d e.1 e.2 else d) d) n =
      (updLatest es n).or (alGet? d n) := by
  induction es generalizing d with
  | nil => simp [updLatest]
  | cons e tl ih =>
    rw [List.foldl_cons, ih, alGet?_updStep, updLatest_cons, Option.or_assoc]

/-- The `updates` dict lookup of `merge_processed_files` computes exactly
the spec's "latest non-placeholder value across the update lists". -/
theorem alGet?_buildUpdates (updates : List (List (String × String))) (n : String) :
    alGet? (buildUpdates updates) n = spec_latest_update updates n := by
  have key : ∀ (upds : List (List (String × String))) (d : List (String × String)),
      alGet? (upds.foldl
        (fun d entries =>
          entries.foldl (fun d e => if updOk e.2 then alInsert d e.1 e.2 else d) d) d) n =
        (updLatest upds.flatten n).or (alGet? d n) := by
    intro upds
    induction upds with
    | nil => intro d; simp [updLatest]
    | cons es tl ih =>
      intro d
      rw [List.foldl_cons, ih, alGet?_foldl_updates]
      rw [show (es :: tl).flatten = es ++ tl.flatten from rfl, updLatest_append,
        Option.or_assoc]
  have hspec : spec_latest_update updates n = updLatest updates.flatten n := rfl
  rw [buildUpdates, key, hspec]
  simp [alGet?]

theorem updOk_ne_empty {s : String} (h : updOk s = true) : s ≠ "" := by
  simp only [updOk, Bool.and_eq_true, bne_iff_ne, ne_eq] at h
  exact h.1

theorem spec_latest_update_ne_empty {updates : List (List (String × String))} {n v : String}
    (h : spec_latest_update updates n = some v) : v ≠ "" := by
  unfold spec_latest_update at h
  rcases Option.map_eq_some'.mp h with ⟨e, he, rfl⟩
  have hmem := List.mem_of_find?_eq_some he
  rw [List.mem_reverse] at hmem
  have hok : updOk e.2 = true := by
    have := List.of_mem_filter hmem
    simpa using this
  exact updOk_ne_empty hok

theorem mergedLine_eq_spec (updates : List (List (String × String))) (e : String × String) :
    mergedLine (buildUpdates updates) e = spec_merged_line updates e := by
  unfold mergedLine spec_merged_line
  rw [alGet?_buildUpdates]
  by_cases hc : e.2 = "" ∨ lowerStr e.2 = "unknown"
  · cases hl : spec_latest_update updates e.1 with
    | none => simp [hc, hl]
    | some v =>
      have hv : v ≠ "" := spec_latest_update_ne_empty hl
      simp [hc, hl, hv]
  · push_neg at hc
    simp [hc.1, hc.2]

end Gpt5WebSearch

/-- **C8.** The merge operation emits, for every base entry in order, the
line the spec prescribes: a base entry whose school is unresolved (empty
or, case-insensitively, `unknown`) is replaced by the latest
non-placeholder update value for that name when one exists, every base
entry with a resolved school is left unchanged, and in particular the
base `[("X", "unknown")]` merged with the update
`[("X", "Carnegie Mellon University")]` yields the single output line
`"X | Carnegie Mellon University"`. -/
theorem merge_processed_files_spec (base : List (String × String))
    (updates : List (List (String × String))) :
    Gpt5WebSearch.merge_processed_files base updates =
      base.map (Gpt5WebSearch.spec_merged_line updates) ∧
    Gpt5WebSearch.merge_processed_files [("X", "unknown")]
      [[("X", "Carnegie Mellon University")]] = ["X | Carnegie Mellon University"] := by
  constructor
  · unfold Gpt5WebSearch.merge_processed_files
    exact List.map_congr_left (fun e _ => Gpt5WebSearch.mergedLine_eq_spec updates e)
  · decide

/-- **C7 (amended).** For a line `a ++ "|" ++ b` whose prefix `a` holds no
separator — so the first separator occurrence splits the line into exactly
`a` and `b` — each extractor trims both parts; the `main_mit.py` extractor
drops the line when either trimmed part is empty, while
`parse_processed_lines` (`main_stanford.py`) drops it only when the
trimmed school is empty (an empty name passes through), and
`parse_processed_file` (`gpt5_web_search.py`) drops it only when the
trimmed name is empty (an empty school passes through).  All three are
total functions: malformed lines degrade to "no record", never an
error. -/
theorem parse_line_split_first (a b : List Char) (h : '|' ∉ a) :
    MainMit.lineRecord? (String.mk (a ++ '|' :: b)) =
      (if String.mk (pyStripL a) ≠ "" ∧ String.mk (pyStripL b) ≠ ""
        then some (String.mk (pyStripL a), String.mk (pyStripL b)) else none) ∧
    MainStanford.lineRecord? (String.mk (a ++ '|' :: b)) =
      (if String.mk (pyStripL b) ≠ ""
        then some (String.mk (pyStripL a), String.mk (pyStripL b)) else none) ∧
    Gpt5WebSearch.lineEntry? (String.mk (a ++ '|' :: b)) =
      (if String.mk (pyStripL a) ≠ ""
        then some (String.mk (pyStripL a), String.mk (pyStripL b)) else none) := by
  have hsplit : splitCharFirst '|' (a ++ '|' :: b) = (a, b) := splitCharFirst_append b h
  have hcont : (a ++ '|' :: b).contains '|' = true := by
    simp
  refine ⟨?_, ?_, ?_⟩ <;>
    simp [MainMit.lineRecord?, MainStanford.lineRecord?, Gpt5WebSearch.lineEntry?,
      hsplit, hcont]

/-- Witness for C7: the line `"Ada | MIT"` through all three extractors. -/
theorem parse_line_split_first_witness :
    MainMit.lineRecord? (String.mk ("Ada ".data ++ '|' :: " MIT".data)) =
      (if String.mk (pyStripL "Ada ".data) ≠ "" ∧ String.mk (pyStripL " MIT".data) ≠ ""
        then some (String.mk (pyStripL "Ada ".data), String.mk (pyStripL " MIT".data))
        else none) ∧
    MainStanford.lineRecord? (String.mk ("Ada ".data ++ '|' :: " MIT".data)) =
      (if String.mk (pyStripL " MIT".data) ≠ ""
        then some (String.mk (pyStripL "Ada ".data), String.mk (pyStripL " MIT".data))
        else none) ∧
    Gpt5WebSearch.lineEntry? (String.mk ("Ada ".data ++ '|' :: " MIT".data)) =
      (if String.mk (pyStripL "Ada ".data) ≠ ""
        then some (String.mk (pyStripL "Ada ".data), String.mk (pyStripL " MIT".data))
        else none) :=
  parse_line_split_first "Ada ".data " MIT".data (by decide)

/-- Counterexample to C7 as stated: `parse_processed_lines` emits a record
for `"| MIT"` although the trimmed name part is empty, and
`parse_processed_file` emits one for `"Ada |"` although the trimmed school
part is empty — the "either part empty ⇒ dropped" rule holds only for the
`main_mit.py` extractor. -/
theorem parse_line_empty_part_counterexample :
    MainStanford.parse_processed_lines ["| MIT"] = [("", "MIT")] ∧
    Gpt5WebSearch.parse_processed_file ["Ada |"] = [("Ada", "")] := by decide

theorem lowerAscii_isPySpace {c : Char} (h : isPySpace c = true) : lowerAscii c = c := by
  simp only [isPySpace, Bool.or_eq_true, beq_iff_eq] at h
  rcases h with ((((h | h) | h) | h) | h) | h <;> subst h <;> decide

theorem isPySpace_false_of_lower {c : Char} (hd : isPySpace (lowerAscii c) = false) :
    isPySpace c = false := by
  by_cases hs : isPySpace c = true
  · rwa [lowerAscii_isPySpace hs] at hd
  · simpa using hs

theorem dropWhile_head_false {p : Char → Bool} {l : List Char}
    (h : ∀ c, l.head? = some c → p c = false) : l.dropWhile p = l := by
  cases l with
  | nil => rfl
  | cons c tl => rw [List.dropWhile_cons, h c rfl]; simp

theorem pyStripL_eq_self {l : List Char}
    (hh : ∀ c, l.head? = some c → isPySpace c = false)
    (hl : ∀ c, l.getLast? = some c → isPySpace c = false) : pyStripL l = l := by
  unfold pyStripL
  rw [dropWhile_head_false hh]
  rw [dropWhile_head_false (fun c hc => hl c (by rwa [List.head?_reverse] at hc))]
  exact List.reverse_reverse l

theorem dashNormL_eq_self {l : List Char} (h : ∀ c ∈ l, c ≠ '–' ∧ c ≠ '—') :
    dashNormL l = l := by
  unfold dashNormL
  conv_rhs => rw [← List.map_id l]
  exact List.map_congr_left fun c hc => by
    simp [normDashChar, (h c hc).1, (h c hc).2]

/-- A string whose ASCII-lowercasing is a fixed placeholder term `t` (no
dashes, no whitespace at either end, recognised by the lowercased
`MISSING_PAT` body) canonicalises to `none` in `main_cmu.py`. -/
theorem cmu_canonical_none_of_lower (s t : String)
    (hmap : s.data.map lowerAscii = t.data)
    (hthead0 : t.data.head?.all (fun c => !isPySpace c) = true)
    (htlast0 : t.data.getLast?.all (fun c => !isPySpace c) = true)
    (htdash0 : t.data.all (fun c => !(c == '–') && !(c == '—')) = true)
    (htmissing : MainCmu.missingCoreLower t.data = true) :
    MainCmu.canonical s = none := by
  have hthead : ∀ c, t.data.head? = some c → isPySpace c = false := by
    intro c hc
    rw [hc] at hthead0
    simpa using hthead0
  have htlast : ∀ c, t.data.getLast? = some c → isPySpace c = false := by
    intro c hc
    rw [hc] at htlast0
    simpa using htlast0
  have htdash : '–' ∉ t.data ∧ '—' ∉ t.data := by
    constructor <;> intro hmem <;>
      simpa using List.all_eq_true.mp htdash0 _ hmem
  have hstrip : pyStripL s.data = s.data := by
    refine pyStripL_eq_self (fun c hc => ?_) (fun c hc => ?_)
    · refine isPySpace_false_of_lower (hthead (lowerAscii c) ?_)
      rw [← hmap, List.head?_map, hc]
      rfl
    · refine isPySpace_false_of_lower (htlast (lowerAscii c) ?_)
      rw [← hmap, List.getLast?_map, hc]
      rfl
  have hdash : dashNormL s.data = s.data := by
    refine dashNormL_eq_self fun c hc => ⟨fun h1 => ?_, fun h2 => ?_⟩
    · refine htdash.1 ?_
      rw [← hmap]
      have : lowerAscii c = '–' := by rw [h1]; decide
      exact this ▸ List.mem_map_of_mem lowerAscii hc
    · refine htdash.2 ?_
      rw [← hmap]
      have : lowerAscii c = '—' := by rw [h2]; decide
      exact this ▸ List.mem_map_of_mem lowerAscii hc
  have hmiss : MainCmu.missingFullmatch s.data = true := by
    rw [MainCmu.missingFullmatch, hmap]
    exact htmissing
  simp [MainCmu.canonical, MainCmu.canonicalCore, MainCmu.missingCheck, hstrip, hdash, hmiss]

/-- The placeholder terms named by the testable-properties claim. -/
def claimedPlaceholderTerms : List String :=
  ["unknown", "n/a", "not found", "not available",
   "undergrad institution not found", "institution not confirmed"]

/-- **C3 (amended).** The `main_cmu.py` canonicaliser returns Unresolved
(`none`) on every recognised placeholder: every string that is an exact
case-insensitive whole-string match of one of the claim's six terms, the
empty string, and every non-empty string consisting solely of dash
characters (ASCII hyphen, en dash or em dash — the latter two are
normalised to hyphens before the `-+` fullmatch).  The `main.py` variant
does not recognise `unknown` or `institution not confirmed` (see the
counterexample). -/
theorem cmu_canonical_placeholders_unresolved (s : String)
    (h : (∃ t ∈ claimedPlaceholderTerms, s.data.map lowerAscii = t.data) ∨ s = "" ∨
      (s ≠ "" ∧ ∀ c ∈ s.data, c = '-' ∨ c = '–' ∨ c = '—')) :
    MainCmu.canonical s = none := by
  rcases h with ⟨t, ht, hmap⟩ | rfl | ⟨hne, hdash⟩
  · simp only [claimedPlaceholderTerms, List.mem_cons, List.not_mem_nil, or_false] at ht
    rcases ht with rfl | rfl | rfl | rfl | rfl | rfl <;>
      exact cmu_canonical_none_of_lower s _ hmap (by decide) (by decide) (by decide)
        (by decide)
  · decide
  · have hstrip : pyStripL s.data = s.data := by
      refine pyStripL_eq_self (fun c hc => ?_) (fun c hc => ?_)
      · rcases hdash c (List.mem_of_mem_head? (by simp [hc])) with rfl | rfl | rfl <;> decide
      · have h1 : s.data.reverse.head? = some c := by rw [List.head?_reverse]; exact hc
        have h2 : c ∈ s.data.reverse := List.mem_of_mem_head? (by simp [h1])
        rcases hdash c (List.mem_reverse.mp h2) with rfl | rfl | rfl <;> decide
    have hrun : isDashRun (dashNormL s.data) = true := by
      have hne' : s.data ≠ [] := fun hl => hne (by
        cases s
        simp_all)
      unfold isDashRun dashNormL
      simp only [Bool.and_eq_true]
      refine ⟨by simpa using hne', List.all_eq_true.mpr ?_⟩
      intro c hc
      rcases List.mem_map.mp hc with ⟨c0, hc0, rfl⟩
      rcases hdash c0 hc0 with rfl | rfl | rfl <;> decide
    simp [MainCmu.canonical, MainCmu.canonicalCore, MainCmu.missingCheck, hstrip, hrun]

/-- Witness for C3: the mixed-case placeholder `"Unknown"`. -/
theorem cmu_canonical_placeholders_unresolved_witness :
    MainCmu.canonical "Unknown" = none :=
  cmu_canonical_placeholders_unresolved "Unknown"
    (Or.inl ⟨"unknown", by decide, by decide⟩)

/-- Counterexample to C3 as stated: `canonical` of `main.py` — one of the
claim's cited canonicalisers — resolves the placeholder `"unknown"` to
itself instead of returning Unresolved (its `MISSING_PAT` has no
`unknown` alternative), and likewise resolves
`"institution not confirmed"`. -/
theorem py_canonical_placeholder_counterexample :
    MainPy.canonical "unknown" = some "unknown" ∧
    MainPy.canonical "unknown" ≠ none := by decide


/-- **C4 (amended).** The pandas `overall` table (`main_cmu.py`) is, for
every input column, ordered by strictly descending count with ties broken
by strictly ascending lexicographic canonical institution name (code-point
order; the rows carry pairwise-distinct names, so ties are strict).  The
`Counter.most_common`-based `save_counts` of `main_stanford.py` instead
leaves tied rows in first-insertion order (see the counterexample). -/
theorem overall_sorted_desc_then_name (insts : List String) :
    (MainCmu.overall insts).Pairwise
      (fun a b => b.2 < a.2 ∨ (a.2 = b.2 ∧ lexLeB a.1.data b.1.data = true ∧ a.1 ≠ b.1)) := by
  have hsorted : List.Sorted MainCmu.rowLe (MainCmu.overall insts) :=
    List.sorted_insertionSort MainCmu.rowLe _
  have hkeysnodup :
      (List.insertionSort (fun a b : String => lexLeB a.data b.data = true)
        ((insts.filterMap MainCmu.canonical).dedup)).Nodup :=
    (List.perm_insertionSort _ _).symm.nodup (List.nodup_dedup _)
  have hgrouped :
      (((List.insertionSort (fun a b : String => lexLeB a.data b.data = true)
          ((insts.filterMap MainCmu.canonical).dedup)).map
        (fun k => (k, (insts.filterMap MainCmu.canonical).count k))).Pairwise
        (fun a b : String × Nat => a.1 ≠ b.1)) :=
    List.pairwise_map.mpr (hkeysnodup.imp (by intro a b h; simpa using h))
  have hne : (MainCmu.overall insts).Pairwise (fun a b : String × Nat => a.1 ≠ b.1) :=
    ((List.perm_insertionSort _ _).pairwise_iff (by
      intro a b h he
      exact h he.symm)).mpr hgrouped
  refine (hsorted.and hne).imp ?_
  rintro a b ⟨hle | ⟨heq, hle⟩, hne1⟩
  · exact Or.inl hle
  · exact Or.inr ⟨heq, hle, hne1⟩

/-- **C5 (amended).** For the group-by aggregator (`overall` of
`main_cmu.py`, the embedding of the `groupby(...).size()` tables), the
counts sum to exactly the number of input records whose canonical
institution is resolved (non-`NA`).  The name-deduplicating
`tally_schools` does not satisfy this (see the counterexample): it counts
each name once, so duplicate and conflicting records are resolved but
uncounted. -/
theorem overall_counts_sum_to_resolved (insts : List String) :
    ((MainCmu.overall insts).map (·.2)).sum =
      (insts.filterMap MainCmu.canonical).length := by
  have hperm1 :
      List.Perm (MainCmu.overall insts)
        ((List.insertionSort (fun a b : String => lexLeB a.data b.data = true)
          ((insts.filterMap MainCmu.canonical).dedup)).map
          (fun k => (k, (insts.filterMap MainCmu.canonical).count k))) :=
    List.perm_insertionSort _ _
  have hperm2 :
      List.Perm
        (List.insertionSort (fun a b : String => lexLeB a.data b.data = true)
          ((insts.filterMap MainCmu.canonical).dedup))
        ((insts.filterMap MainCmu.canonical).dedup) :=
    List.perm_insertionSort _ _
  calc ((MainCmu.overall insts).map (·.2)).sum
      = (((List.insertionSort (fun a b : String => lexLeB a.data b.data = true)
            ((insts.filterMap MainCmu.canonical).dedup)).map
          (fun k => (k, (insts.filterMap MainCmu.canonical).count k))).map (·.2)).sum :=
        (hperm1.map _).sum_eq
    _ = ((List.insertionSort (fun a b : String => lexLeB a.data b.data = true)
            ((insts.filterMap MainCmu.canonical).dedup)).map
          (fun k => (insts.filterMap MainCmu.canonical).count k)).sum := by
        rw [List.map_map]
        rfl
    _ = ((insts.filterMap MainCmu.canonical).dedup.map
          (fun k => (insts.filterMap MainCmu.canonical).count k)).sum :=
        (hperm2.map _).sum_eq
    _ = (insts.filterMap MainCmu.canonical).length :=
        List.sum_map_count_dedup_eq_length _

/-- Counterexample to C4 as stated: with two tied schools first seen in
the order `Zeta`, `Alpha`, the `save_counts` table of `main_stanford.py`
(`Counter.most_common`) keeps them in insertion order, violating the
claimed ascending-name tie-break. -/
theorem save_counts_tie_order_counterexample :
    MainStanford.mostCommon
        (MainStanford.tally_schools [("A", "Zeta"), ("B", "Alpha")]).counter =
      [("Zeta", 1), ("Alpha", 1)] ∧
    ¬ List.Pairwise
        (fun a b => b.2 < a.2 ∨ (a.2 = b.2 ∧ lexLeB a.1.data b.1.data = true ∧ a.1 ≠ b.1))
        [(("Zeta" : String), (1 : Nat)), ("Alpha", 1)] := by
  constructor
  · decide
  · decide

/-- Counterexample to C5 as stated: `tally_schools` over a duplicated
record pair has both records resolved but a count table summing to 1. -/
theorem tally_sum_counterexample :
    ((MainStanford.tally_schools [("A", "MIT"), ("A", "MIT")]).counter.map (·.2)).sum = 1 ∧
    (([("A", "MIT"), ("A", "MIT")] : List (String × String)).filter
        (fun r => MainStanford.canonicalise_school r.2 != "")).length = 2 ∧
    (1 : Nat) ≠ 2 := by
  refine ⟨by decide, by decide, by decide⟩


/-! Each canonical alias form of `main_stanford.py` is individually a
fixed point of `canonicalise_school` (one kernel evaluation per lemma;
the amended C1 theorem below assembles them). -/

theorem aliasFixed01 :
    MainStanford.canonicalise_school "Massachusetts Institute of Technology" =
      "Massachusetts Institute of Technology" := by decide

theorem aliasFixed02 :
    MainStanford.canonicalise_school "California Institute of Technology" =
      "California Institute of Technology" := by decide

theorem aliasFixed03 :
    MainStanford.canonicalise_school "Carnegie Mellon University" =
      "Carnegie Mellon University" := by decide

theorem aliasFixed04 :
    MainStanford.canonicalise_school "Georgia Institute of Technology" =
      "Georgia Institute of Technology" := by decide

theorem aliasFixed05 :
    MainStanford.canonicalise_school "University of Washington" =
      "University of Washington" := by decide

theorem aliasFixed06 :
    MainStanford.canonicalise_school "University of Chicago" =
      "University of Chicago" := by decide

theorem aliasFixed07 :
    MainStanford.canonicalise_school "University of California, Berkeley" =
      "University of California, Berkeley" := by decide

theorem aliasFixed08 :
    MainStanford.canonicalise_school "University of California, San Diego" =
      "University of California, San Diego" := by decide

theorem aliasFixed09 :
    MainStanford.canonicalise_school "University of California, Los Angeles" =
      "University of California, Los Angeles" := by decide

theorem aliasFixed10 :
    MainStanford.canonicalise_school "University of California, Davis" =
      "University of California, Davis" := by decide

theorem aliasFixed11 :
    MainStanford.canonicalise_school "University of California, Irvine" =
      "University of California, Irvine" := by decide

theorem aliasFixed12 :
    MainStanford.canonicalise_school "University of California, Santa Barbara" =
      "University of California, Santa Barbara" := by decide

theorem aliasFixed13 :
    MainStanford.canonicalise_school "University of Illinois Urbana-Champaign" =
      "University of Illinois Urbana-Champaign" := by decide

theorem aliasFixed14 :
    MainStanford.canonicalise_school "University of North Carolina at Chapel Hill" =
      "University of North Carolina at Chapel Hill" := by decide

theorem aliasFixed15 :
    MainStanford.canonicalise_school "University of Sydney" =
      "University of Sydney" := by decide

theorem aliasFixed16 :
    MainStanford.canonicalise_school "Brown University" =
      "Brown University" := by decide

theorem aliasFixed17 :
    MainStanford.canonicalise_school "The Hong Kong University of Science and Technology" =
      "The Hong Kong University of Science and Technology" := by decide

theorem aliasFixed18 :
    MainStanford.canonicalise_school "University of Hong Kong" =
      "University of Hong Kong" := by decide

theorem aliasFixed19 :
    MainStanford.canonicalise_school "University of São Paulo" =
      "University of São Paulo" := by decide

theorem aliasFixed20 :
    MainStanford.canonicalise_school "Birla Institute of Technology and Science" =
      "Birla Institute of Technology and Science" := by decide

theorem aliasFixed21 :
    MainStanford.canonicalise_school "Ecole Polytechnique Federale de Lausanne" =
      "Ecole Polytechnique Federale de Lausanne" := by decide

theorem aliasFixed22 :
    MainStanford.canonicalise_school "Shanghai Jiao Tong University" =
      "Shanghai Jiao Tong University" := by decide

theorem aliasFixed23 :
    MainStanford.canonicalise_school "University of Science and Technology of China" =
      "University of Science and Technology of China" := by decide

theorem aliasFixed24 :
    MainStanford.canonicalise_school "Pohang University of Science and Technology" =
      "Pohang University of Science and Technology" := by decide

theorem aliasFixed25 :
    MainStanford.canonicalise_school "Harvard University" =
      "Harvard University" := by decide

/-- Counterexample to C1 as stated: `canonicalise_school` resolves
`"Foo, Bar, Baz"` to `"Foo, Bar"` (the trailing-locality rule strips only
the last `", Baz"` segment, since `[A-Za-z.\s]+$` forbids a second comma),
yet canonicalising that resolved output strips once more, to `"Foo"` —
canonicalisation of a resolved output does not return it unchanged. -/
theorem canonicalise_idempotence_counterexample :
    MainStanford.canonicalise_school "Foo, Bar, Baz" = "Foo, Bar" ∧
    MainStanford.canonicalise_school "Foo, Bar, Baz" ≠ "" ∧
    MainStanford.canonicalise_school (MainStanford.canonicalise_school "Foo, Bar, Baz") ≠
      MainStanford.canonicalise_school "Foo, Bar, Baz" := by
  refine ⟨by decide, by decide, by decide⟩

/-- **C1 (amended).** Idempotence holds on the canonical forms the alias
table produces: every replacement value of the `main_stanford.py`
`ALIASES` table is a fixed point of `canonicalise_school` (canonical
alias forms re-match no alias pattern and re-trigger no cleanup rule).
General idempotence on arbitrary resolved outputs fails (see the
counterexample). -/
theorem alias_replacements_fixed_points :
    (MainStanford.ALIASES.map (·.2)).all
      (fun r => MainStanford.canonicalise_school r == r) = true := by
  simp only [MainStanford.ALIASES, List.map_cons, List.map_nil, List.all_cons, List.all_nil,
    aliasFixed01, aliasFixed02, aliasFixed03, aliasFixed04, aliasFixed05, aliasFixed06, aliasFixed07, aliasFixed08, aliasFixed09, aliasFixed10, aliasFixed11, aliasFixed12, aliasFixed13, aliasFixed14, aliasFixed15, aliasFixed16, aliasFixed17, aliasFixed18, aliasFixed19, aliasFixed20, aliasFixed21, aliasFixed22, aliasFixed23, aliasFixed24, aliasFixed25,
    beq_self_eq_true, Bool.true_and, Bool.and_true, Bool.and_self]

/-- Counterexample to C2 as stated: on the three records the single
conflict tuple carries `"Stanford"` — `canonicalise_school` maps the raw
`"Stanford"` to itself, there is no alias expanding it — not the claimed
`"Stanford University"`. -/
theorem dedupe_scenario_counterexample :
    (MainStanford.tally_schools [("A", "MIT"), ("A", "Stanford"), ("B", "MIT")]).conflicts =
      [("A", "Massachusetts Institute of Technology", "Stanford")] ∧
    (MainStanford.tally_schools [("A", "MIT"), ("A", "Stanford"), ("B", "MIT")]).conflicts ≠
      [("A", "Massachusetts Institute of Technology", "Stanford University")] := by
  refine ⟨by decide, by decide⟩

/-- **C2 (amended).** On `[("A","MIT"), ("A","Stanford"), ("B","MIT")]`
the dedupe tally counts Massachusetts Institute of Technology twice (A's
first record plus B), gives A's second school no count entry at all (the
counter has exactly the one key), and records exactly one conflict,
`("A", "Massachusetts Institute of Technology", "Stanford")`. -/
theorem dedupe_scenario :
    (MainStanford.tally_schools [("A", "MIT"), ("A", "Stanford"), ("B", "MIT")]).counter =
      [("Massachusetts Institute of Technology", 2)] ∧
    (MainStanford.tally_schools [("A", "MIT"), ("A", "Stanford"), ("B", "MIT")]).conflicts =
      [("A", "Massachusetts Institute of Technology", "Stanford")] := by
  refine ⟨by decide, by decide⟩
